import Mathlib

/-!
Verification development for the FM synthesizer engine (`fm.py`).

The Python source is shallowly embedded: NumPy float buffers become `List ℚ`
(exact rational arithmetic stands in for float arithmetic; the claims under
study are structural, not about rounding), `np.sin` and the constant `2*np.pi`
are abstracted as parameters `sinf : ℚ → ℚ` and `twoPi : ℚ` (no claim depends
on analytic properties of the sine function), and Python exceptions become
`Except` values.  NumPy float division by zero produces non-finite samples
(inf or nan); this is modelled by `Option ℚ` samples, `none` standing for a
non-finite value.
-/

namespace FMSynth

/-- Error conditions raised by the Python code (all surface as
`ValueError`/`TypeError`; the constructors record the raise site). -/
inductive PyErr where
  /-- `envelope`: `s_level` outside `[0, 1]`. -/
  | invalidSLevel
  /-- `np.zeros(n)` with `n < 0` (in `envelope`'s zero-padding branch). -/
  | negativeDim
  /-- `envelope(*env)` called with a parameter list whose length is not 5. -/
  | badArity
  /-- `OperatorChain.__init__` with `n_ops == 0`. -/
  | zeroOps
  /-- `OperatorChain.__init__` with a per-operator parameter list whose
  length differs from `n_ops`. -/
  | lengthMismatch
  /-- Out-of-range list indexing (unreachable under the constructor checks). -/
  | indexError
deriving DecidableEq

/-- `FS = 44100`, the sample rate. -/
def FS : ℕ := 44100

/-- `SECONDS = 1`, the buffer duration. -/
def SECONDS : ℚ := 1

/-- `math.ceil(FS*SECONDS)`, the fixed buffer length. -/
def sizeT : ℕ := (⌈(FS : ℚ) * SECONDS⌉).toNat

/-- `NOTE = 440`, the tuning frequency. -/
def NOTE : ℚ := 440

/-- `np.linspace(a, b, n)`: `n` evenly spaced points from `a` to `b`
inclusive (`[a]` for `n = 1`, `[]` for `n = 0`). -/
def linspaceQ (a b : ℚ) (n : ℕ) : List ℚ :=
  if n = 1 then [a]
  else (List.range n).map (fun (k : ℕ) => a + (b - a) * (k : ℚ) / ((n : ℚ) - 1))

/-- `T = np.linspace(0, SECONDS, math.ceil(FS*SECONDS))`, the time grid. -/
def T : List ℚ := linspaceQ 0 SECONDS sizeT

/-- `int(np.ceil(x*FS))`: number of samples of a segment of `x` seconds.
(Negative durations make `np.linspace` raise in Python; all claims range
over non-negative durations, where `toNat` is exact.) -/
def segCount (x : ℚ) : ℕ := (⌈x * (FS : ℚ)⌉).toNat

/-- The concatenation `np.concatenate((a_int, d_int, s_int, r_int))` of the
four ADSR segments built by `envelope`. -/
def envSegments (a d s_len s_level r : ℚ) : List ℚ :=
  linspaceQ 0 1 (segCount a)
    ++ (linspaceQ 0 (1 - s_level) (segCount d)).map (fun x => 1 - x)
    ++ (List.replicate (segCount s_len) (1 : ℚ)).map (fun x => s_level * x)
    ++ (linspaceQ 1 0 (segCount r)).map (fun x => s_level * x)

/-- `fm.envelope(a, d, s_len, s_level, r)`.  In the `a+d+s_len+r > SECONDS`
branch the source calls `np.resize(adsr, np.size(T))`, which truncates
whenever the source array is at least as long as the target, which holds for
non-negative durations in that branch; modelled by `List.take`.  In the other
branch `np.zeros(np.size(T) - np.size(adsr))` raises when the difference is
negative, modelled by `.error .negativeDim`. -/
def envelope (a d s_len s_level r : ℚ) : Except PyErr (List ℚ) :=
  if s_level > 1 ∨ s_level < 0 then .error .invalidSLevel
  else
    let adsr := envSegments a d s_len s_level r
    if a + d + s_len + r > SECONDS then .ok (adsr.take sizeT)
    else if sizeT < adsr.length then .error .negativeDim
    else .ok (adsr ++ List.replicate (sizeT - adsr.length) (0 : ℚ))

/-- `envelope(*l)`: unpack a 5-element parameter list (wrong arity is a
Python `TypeError`). -/
def envelopeFromList (l : List ℚ) : Except PyErr (List ℚ) :=
  match l with
  | [a, d, s_len, s_level, r] => envelope a d s_len s_level r
  | _ => .error .badArity

/-- `envelope(*env) if env else np.ones(np.size(T))` (`Operator`'s envelope
initialisation: an empty parameter list means unity gain). -/
def envFromParams (l : List ℚ) : Except PyErr (List ℚ) :=
  if l = [] then .ok (List.replicate sizeT (1 : ℚ)) else envelopeFromList l

/-- `np.sum(waves, 0)`: elementwise sum of a list of equal-length buffers
(the claims only use non-empty `waves`; `np.sum([], 0)` is a scalar). -/
def npSum : List (List ℚ) → List ℚ
  | [] => []
  | w :: ws => ws.foldl (fun acc x => List.zipWith (· + ·) acc x) w

/-- `np.max(l)`: the largest element (`np.max` raises on an empty array;
the claims only apply it to non-empty buffers). -/
def npMax : List ℚ → ℚ
  | [] => 0
  | x :: xs => xs.foldl max x

/-- NumPy float division `x / m`: a finite rational unless `m = 0`, in which
case the float result is non-finite (`inf` or `nan`), modelled as `none`. -/
def npDiv (x m : ℚ) : Option ℚ :=
  if m = 0 then none else some (x / m)

/-- `fm.addsyn(waves)`: `out = np.sum(waves, 0); out = out/np.max(out)`. -/
def addsyn (waves : List (List ℚ)) : List (Option ℚ) :=
  let out := npSum waves
  out.map (fun x => npDiv x (npMax out))

/-- What the spec sentence for C3 describes: the elementwise sum divided by
the maximum **absolute** sample value of the sum.  (Modelled from the spec's
words, for comparison with `addsyn`.) -/
def specAddsynMaxAbs (waves : List (List ℚ)) : List ℚ :=
  let out := npSum waves
  out.map (fun x => x / npMax (out.map (fun y => |y|)))

/-- The inner loop of `fm.reshape_list`: split `vals` into consecutive runs
whose lengths are the entries of `algorithm` (the Python loop walks a single
index `vals_idx` through `vals`, which under the length guard is exactly
take/drop). -/
def reshapeGo {α : Type _} : List ℕ → List α → List (List α)
  | [], _ => []
  | i :: rest, vs => vs.take i :: reshapeGo rest (vs.drop i)

/-- Whether an `Except` result is an error (a raised Python exception). -/
def isError {ε α : Type _} : Except ε α → Bool
  | .error _ => true
  | .ok _ => false

/-- `fm.reshape_list(vals, algorithm)` (raises `ValueError` on a total-length
mismatch). -/
def reshape_list {α : Type _} (vals : List α) (algorithm : List ℕ) :
    Except String (List (List α)) :=
  if vals.length ≠ algorithm.sum then
    .error "vals not compatible with algorithm"
  else .ok (reshapeGo algorithm vals)

/-- Elementwise product `np.multiply(x, y)` of two buffers. -/
def npMulL (x y : List ℚ) : List ℚ := List.zipWith (· * ·) x y

/-- Elementwise sum `x + y` of two buffers. -/
def npAddL (x y : List ℚ) : List ℚ := List.zipWith (· + ·) x y

/-- Scalar times buffer `c * x`. -/
def scalMul (c : ℚ) (x : List ℚ) : List ℚ := x.map (fun v => c * v)

/-- `np.sin` applied elementwise, for an abstract sine `sinf`. -/
def npSin (sinf : ℚ → ℚ) (x : List ℚ) : List ℚ := x.map sinf

/-- `fm.Operator`: `freq` is already scaled by `NOTE` (the Python property
setter), `env` is the computed envelope buffer, `mod` the modulating input
buffer, `out` the cached `_out` buffer (Python initialises `_out = None`, but
every read goes through the recomputing property, so the initial value is
never observed). -/
structure Operator where
  freq : ℚ
  mod_idx : ℚ
  env : List ℚ
  fb : ℕ
  mod : List ℚ
  out : List ℚ
deriving DecidableEq

/-- `np.multiply(env, np.sin(2*np.pi*freq*T + mod_idx*m))`, the formula of
`Operator._update_out`. -/
def opFormula (sinf : ℚ → ℚ) (twoPi : ℚ) (freq mod_idx : ℚ)
    (env m : List ℚ) : List ℚ :=
  npMulL env (npSin sinf (npAddL (scalMul (twoPi * freq) T) (scalMul mod_idx m)))

/-- The feedback loop of `Operator._update_out`: `fb_mod` after `k`
iterations, starting from `self.mod`. -/
def fbIter (sinf : ℚ → ℚ) (twoPi : ℚ) (op : Operator) : ℕ → List ℚ
  | 0 => op.mod
  | k + 1 => opFormula sinf twoPi op.freq op.mod_idx op.env
      (fbIter sinf twoPi op k)

/-- The buffer computed by `Operator._update_out` for the operator's current
state. -/
def updateOutBuf (sinf : ℚ → ℚ) (twoPi : ℚ) (op : Operator) : List ℚ :=
  opFormula sinf twoPi op.freq op.mod_idx op.env (fbIter sinf twoPi op op.fb)

/-- Reading the `Operator.out` property: `_update_out` runs and stores a new
`_out` buffer (a fresh array, the old one is not mutated in place). -/
def refreshOut (sinf : ℚ → ℚ) (twoPi : ℚ) (op : Operator) : Operator :=
  { op with out := updateOutBuf sinf twoPi op }

/-- `Operator.__init__`: scales the frequency by `NOTE`, computes the
envelope buffer (`envelope(*env) if env else ones`, which can raise), stores
feedback and the modulating buffer.  `out := []` stands for Python's
`_out = None`, never observed. -/
def mkOperator (sinf : ℚ → ℚ) (twoPi : ℚ) (freq mod_idx : ℚ) (env : List ℚ)
    (fb : ℕ) (mod : List ℚ) : Except PyErr Operator :=
  (envFromParams env).map
    (fun e => { freq := freq * NOTE, mod_idx := mod_idx, env := e, fb := fb,
                mod := mod, out := [] })

/-- zip of four per-operator parameter lists, truncating at the shortest
(Python `zip`). -/
def zip4 : List ℚ → List ℚ → List (List ℚ) → List ℕ →
    List (ℚ × ℚ × List ℚ × ℕ)
  | f :: fs, m :: ms, e :: es, b :: bs => (f, m, e, b) :: zip4 fs ms es bs
  | _, _, _, _ => []

/-- The construction loop of `OperatorChain.__init__`: each new operator is
wired with the previous operator's freshly computed output as its modulating
input (in Python, creating `Operator(..., curr_op.out)` recomputes and stores
`curr_op._out`; the array handed on is never mutated afterwards, so value
passing is faithful).  Returns the final operator list and the chain output
`curr_op.out`. -/
def mkOpsAux (sinf : ℚ → ℚ) (twoPi : ℚ) (curr : Operator) :
    List (ℚ × ℚ × List ℚ × ℕ) → Except PyErr (List Operator × List ℚ)
  | [] =>
      let c := refreshOut sinf twoPi curr
      .ok ([c], c.out)
  | (f, mi, e, fb) :: rest => do
      let c := refreshOut sinf twoPi curr
      let op ← mkOperator sinf twoPi f mi e fb c.out
      let (ops, outp) ← mkOpsAux sinf twoPi op rest
      .ok (c :: ops, outp)

/-- `fm.OperatorChain`: the stored per-operator parameter lists hold the raw
patch values (frequencies *not* yet scaled by `NOTE`), `operators` the wired
operator objects, `output` the last operator's output. -/
structure OperatorChain where
  n_ops : ℕ
  freqs : List ℚ
  mod_indices : List ℚ
  envs : List (List ℚ)
  feedback : List ℕ
  mod_0 : List ℚ
  operators : List Operator
  output : List ℚ
deriving DecidableEq

/-- `OperatorChain.__init__(n_ops, mod_0, (freqs, mod_indices, envs,
feedback))`: raises on `n_ops == 0` and on any parameter list whose length
is not `n_ops`; otherwise builds and wires the operators.  The final match
arm is unreachable under the preceding checks. -/
def mkOperatorChain (sinf : ℚ → ℚ) (twoPi : ℚ) (n_ops : ℕ) (mod_0 : List ℚ)
    (freqs mod_indices : List ℚ) (envs : List (List ℚ)) (fbs : List ℕ) :
    Except PyErr OperatorChain :=
  if n_ops = 0 then .error .zeroOps
  else if freqs.length ≠ n_ops ∨ mod_indices.length ≠ n_ops ∨
      envs.length ≠ n_ops ∨ fbs.length ≠ n_ops then .error .lengthMismatch
  else
    match freqs, mod_indices, envs, fbs with
    | f0 :: ftl, m0 :: mtl, e0 :: etl, b0 :: btl => do
        let op0 ← mkOperator sinf twoPi f0 m0 e0 b0 mod_0
        let (ops, outp) ← mkOpsAux sinf twoPi op0 (zip4 ftl mtl etl btl)
        .ok { n_ops := n_ops, freqs := f0 :: ftl, mod_indices := m0 :: mtl,
              envs := e0 :: etl, feedback := b0 :: btl, mod_0 := mod_0,
              operators := ops, output := outp }
    | _, _, _, _ => .error .indexError

/-- The linear scan of `set_new_op_params`: `start_idx = n_ops - 1`, then
`for i in range(n_ops - 1): if differs(i): start_idx = i; break`, written
with explicit fuel (`scanGo p m m 0`). -/
def scanGo (p : ℕ → Bool) (m : ℕ) : ℕ → ℕ → ℕ
  | 0, _ => m
  | fuel + 1, i => if p i then i else scanGo p m fuel (i + 1)

/-- First index `i < m` with `p i`, else `m` (the Python scan). -/
def scanFirstDiff (p : ℕ → Bool) (m : ℕ) : ℕ := scanGo p m m 0

/-- The per-index 4-tuple `(freqs[i], mod_indices[i], envs[i], feedback[i])`
compared by the scan (list indexing; the claims keep the index in range, so
the `getD` defaults are never reached). -/
def paramTuple (freqs mod_indices : List ℚ) (envs : List (List ℚ))
    (fbs : List ℕ) (i : ℕ) : ℚ × ℚ × List ℚ × ℕ :=
  (freqs.getD i 0, mod_indices.getD i 0, envs.getD i [], fbs.getD i 0)

/-- The `start_idx` computed by `OperatorChain.set_new_op_params`. -/
def findStart (ch : OperatorChain) (freqs mod_indices : List ℚ)
    (envs : List (List ℚ)) (fbs : List ℕ) : ℕ :=
  scanFirstDiff
    (fun i => decide (paramTuple freqs mod_indices envs fbs i ≠
      paramTuple ch.freqs ch.mod_indices ch.envs ch.feedback i))
    (ch.n_ops - 1)

/-- The Python tuple assignment
`op.freq, op.mod_idx, op.env, op.fb = freq, mi, env, fb`: the `freq` setter
scales by `NOTE`, the `env` setter recomputes the envelope buffer and can
raise (in which case Python leaves the object partially updated; the claims
only use valid envelope parameters, so the error payload is not modelled
further). -/
def setOpFields (op : Operator) (f mi : ℚ) (e : List ℚ) (fb : ℕ) :
    Except PyErr Operator :=
  (envFromParams e).map
    (fun eb => { op with freq := f * NOTE, mod_idx := mi, env := eb, fb := fb })

/-- zip of the remaining operators with their four parameter lists,
truncating at the shortest (Python `zip`). -/
def zip5 : List Operator → List ℚ → List ℚ → List (List ℚ) → List ℕ →
    List (Operator × ℚ × ℚ × List ℚ × ℕ)
  | o :: os, f :: fs, m :: ms, e :: es, b :: bs =>
      (o, f, m, e, b) :: zip5 os fs ms es bs
  | _, _, _, _, _ => []

/-- The rewiring loop of `OperatorChain._update_output`: each remaining
operator gets its new parameters, its modulating input is replaced by the
previous operator's freshly recomputed output, and at the end
`self.output = curr_op.out` recomputes the final operator. -/
def updateChainAux (sinf : ℚ → ℚ) (twoPi : ℚ) (curr : Operator) :
    List (Operator × ℚ × ℚ × List ℚ × ℕ) →
    Except PyErr (List Operator × List ℚ)
  | [] =>
      let c := refreshOut sinf twoPi curr
      .ok ([c], c.out)
  | (op, f, mi, e, fb) :: rest => do
      let op1 ← setOpFields op f mi e fb
      let c := refreshOut sinf twoPi curr
      let (ops, outp) ← updateChainAux sinf twoPi { op1 with mod := c.out } rest
      .ok (c :: ops, outp)

/-- `OperatorChain._update_output(idx)`: re-parameterise operator `idx` from
the stored lists, rewire and recompute every later operator, leave operators
before `idx` untouched. -/
def updateOutput (sinf : ℚ → ℚ) (twoPi : ℚ) (ch : OperatorChain) (idx : ℕ) :
    Except PyErr OperatorChain :=
  match ch.operators.drop idx with
  | [] => .error .indexError
  | curr :: rest => do
      let curr1 ← setOpFields curr (ch.freqs.getD idx 0)
        (ch.mod_indices.getD idx 0) (ch.envs.getD idx []) (ch.feedback.getD idx 0)
      let (ops, outp) ← updateChainAux sinf twoPi curr1
        (zip5 rest (ch.freqs.drop (idx + 1)) (ch.mod_indices.drop (idx + 1))
          (ch.envs.drop (idx + 1)) (ch.feedback.drop (idx + 1)))
      .ok { ch with operators := ch.operators.take idx ++ ops, output := outp }

/-- `OperatorChain.set_new_op_params(op_params)`: find the first operator
whose parameters change, overwrite the stored parameter lists from there on
(Python slice assignment `xs[start:] = new[start:]`, i.e. take/append-drop),
then `_update_output(start_idx)`. -/
def set_new_op_params (sinf : ℚ → ℚ) (twoPi : ℚ) (ch : OperatorChain)
    (freqs mod_indices : List ℚ) (envs : List (List ℚ)) (fbs : List ℕ) :
    Except PyErr OperatorChain :=
  let start := findStart ch freqs mod_indices envs fbs
  updateOutput sinf twoPi
    { ch with
      freqs := ch.freqs.take start ++ freqs.drop start,
      mod_indices := ch.mod_indices.take start ++ mod_indices.drop start,
      envs := ch.envs.take start ++ envs.drop start,
      feedback := ch.feedback.take start ++ fbs.drop start }
    start

/-- The patch dictionary (`mod_0` entries are the per-chain scalar seeds of
the default patches). -/
structure Patch where
  freqs : List (List ℚ)
  mod_indices : List (List ℚ)
  envs : List (List (List ℚ))
  output_env : List ℚ
  mod_0 : List ℚ
  algorithm : List ℕ
  feedback : List (List ℕ)
deriving DecidableEq

/-- `default_patch["output_env"] = [0.0125, 0.025, 0.15, 0.7, 0.05]`. -/
def default_patch_output_env : List ℚ := [0.0125, 0.025, 0.15, 0.7, 0.05]

/-- Multiply a possibly non-finite buffer elementwise with a finite one
(`np.multiply`; a non-finite sample stays non-finite). -/
def npMulOpt (x : List (Option ℚ)) (e : List ℚ) : List (Option ℚ) :=
  List.zipWith (fun o v => o.map (fun q => q * v)) x e

/-- Python `zip` over the six per-chain patch lists, truncating at the
shortest list. -/
def zip6 : List ℕ → List (List ℚ) → List (List ℚ) → List (List (List ℚ)) →
    List ℚ → List (List ℕ) →
    List (ℕ × List ℚ × List ℚ × List (List ℚ) × ℚ × List ℕ)
  | a :: as, f :: fs, m :: ms, e :: es, z :: zs, b :: bs =>
      (a, f, m, e, z, b) :: zip6 as fs ms es zs bs
  | _, _, _, _, _, _ => []

/-- The chain-construction loop of `Synth.__init__`.  The scalar `mod_0`
seed broadcasts against the time grid in NumPy, modelled as the constant
buffer `List.replicate sizeT m0`. -/
def mkChains (sinf : ℚ → ℚ) (twoPi : ℚ) :
    List (ℕ × List ℚ × List ℚ × List (List ℚ) × ℚ × List ℕ) →
    Except PyErr (List OperatorChain)
  | [] => .ok []
  | (a, f, mi, e, m0, fb) :: rest => do
      let c ← mkOperatorChain sinf twoPi a (List.replicate sizeT m0) f mi e fb
      let cs ← mkChains sinf twoPi rest
      .ok (c :: cs)

/-- `fm.Synth`: the engine state after construction or a mutation. -/
structure Synth where
  patch : Patch
  algorithm : List ℕ
  chains : List OperatorChain
  output : List (Option ℚ)
  output_envelope : List ℚ
  prev_output_env_parameters : List ℚ
  output_with_envelope : List (Option ℚ)

/-- `Synth.__init__(patch)`: build the chains from the zipped patch lists,
mix them with `addsyn`, then set up the output envelope: a non-empty
`output_env` is generated (and remembered), an empty one yields the all-ones
buffer with the built-in default patch's parameters remembered. -/
def synthInit (sinf : ℚ → ℚ) (twoPi : ℚ) (p : Patch) : Except PyErr Synth := do
  let chains ← mkChains sinf twoPi
    (zip6 p.algorithm p.freqs p.mod_indices p.envs p.mod_0 p.feedback)
  let output := addsyn (chains.map (fun c => c.output))
  if p.output_env = [] then
    .ok { patch := p, algorithm := p.algorithm, chains := chains,
          output := output,
          output_envelope := List.replicate sizeT (1 : ℚ),
          prev_output_env_parameters := default_patch_output_env,
          output_with_envelope :=
            npMulOpt output (List.replicate sizeT (1 : ℚ)) }
  else do
    let oe ← envelopeFromList p.output_env
    .ok { patch := p, algorithm := p.algorithm, chains := chains,
          output := output, output_envelope := oe,
          prev_output_env_parameters := p.output_env,
          output_with_envelope := npMulOpt output oe }

/-- `Synth._update_output_envelope`: regenerate the output-envelope buffer
from `patch["output_env"]` (remembering non-empty parameters), or reset it
to all-ones leaving the remembered parameters unchanged, and re-apply it to
the current mixed output. -/
def updateOutputEnvelope (s : Synth) : Except PyErr Synth :=
  if s.patch.output_env = [] then
    .ok { s with
          output_envelope := List.replicate sizeT (1 : ℚ),
          output_with_envelope :=
            npMulOpt s.output (List.replicate sizeT (1 : ℚ)) }
  else do
    let oe ← envelopeFromList s.patch.output_env
    .ok { s with
          output_envelope := oe,
          prev_output_env_parameters := s.patch.output_env,
          output_with_envelope := npMulOpt s.output oe }

/-- `Synth.set_output_envelope(vals)`. -/
def set_output_envelope (s : Synth) (vals : List ℚ) : Except PyErr Synth :=
  updateOutputEnvelope { s with patch := { s.patch with output_env := vals } }

/-- `Synth.set_output_envelope_to_prev()`. -/
def set_output_envelope_to_prev (s : Synth) : Except PyErr Synth :=
  updateOutputEnvelope
    { s with patch :=
        { s.patch with output_env := s.prev_output_env_parameters } }

/-- The elementwise formula of the spec's operator contract (claim C2):
`(e ⊙ sin(2π·f·t + I·m))[i] = e[i] * sin(2π·f·T[i] + I·m[i])`, written
directly as a pointwise `zipWith` over the time grid. -/
def specPointwise (sinf : ℚ → ℚ) (twoPi : ℚ) (f I : ℚ) (e m : List ℚ) :
    List ℚ :=
  List.zipWith (fun (et : ℚ × ℚ) mj => et.1 * sinf (twoPi * f * et.2 + I * mj))
    (e.zip T) m

/-- The spec's modulator sequence (claim C2): `m_0` is the external
modulating input and `m_(j+1) = e ⊙ sin(2π·f·t + I·m_j)`. -/
def specModSeq (sinf : ℚ → ℚ) (twoPi : ℚ) (f I : ℚ) (e m0 : List ℚ) :
    ℕ → List ℚ
  | 0 => m0
  | j + 1 => specPointwise sinf twoPi f I e
      (specModSeq sinf twoPi f I e m0 j)

/-- The buffer `envelope(*default_patch["output_env"])` evaluates to (its
segments plus zero-padding to the fixed length). -/
def default_output_env_buf : List ℚ :=
  envSegments 0.0125 0.025 0.15 0.7 0.05
    ++ List.replicate
        (sizeT - (envSegments 0.0125 0.025 0.15 0.7 0.05).length) (0 : ℚ)

/-- Concrete engine state used as a witness input (field values are
irrelevant to the envelope-toggle contract). -/
def testSynth : Synth :=
  { patch := { freqs := [], mod_indices := [], envs := [], output_env := [],
               mod_0 := [], algorithm := [], feedback := [] },
    algorithm := [], chains := [], output := [], output_envelope := [],
    prev_output_env_parameters := [], output_with_envelope := [] }

/-- Concrete one-chain, one-operator patch with no output envelope, used as
a witness input. -/
def testPatch : Patch :=
  { freqs := [[1]], mod_indices := [[1]], envs := [[[]]], output_env := [],
    mod_0 := [0], algorithm := [1], feedback := [[0]] }

/-- Concrete patch declaring two chains in `algorithm` but providing `freqs`
for only one: the outer per-chain lists are inconsistent with the declared
algorithm. -/
def truncatedPatch : Patch :=
  { freqs := [[1]], mod_indices := [[1], [1]], envs := [[[]], [[]]],
    output_env := [], mod_0 := [0, 0], algorithm := [1, 1],
    feedback := [[0], [0]] }

/-- Concrete patch whose single chain declares 2 operators but provides
per-operator lists of length 1. -/
def innerMismatchPatch : Patch :=
  { freqs := [[1]], mod_indices := [[1]], envs := [[[]]], output_env := [],
    mod_0 := [0], algorithm := [2], feedback := [[0]] }

/-- Concrete one-operator chain used as a witness input (a well-formed chain
state: one stored parameter per list, one operator). -/
def testChain : OperatorChain :=
  { n_ops := 1, freqs := [1], mod_indices := [1], envs := [[]],
    feedback := [0], mod_0 := [], operators := [⟨440, 1, [], 0, [], []⟩],
    output := [] }

/-! ### Basic lemmas -/

theorem linspaceQ_length (a b : ℚ) (n : ℕ) : (linspaceQ a b n).length = n := by
  unfold linspaceQ
  split
  · simp [*]
  · rw [List.length_map, List.length_range]

/-- Evaluate `segCount x = n` from the two bounds characterising the
ceiling. -/
theorem segCount_eq (x : ℚ) (n : ℕ) (h1 : (n : ℚ) - 1 < x * ((FS : ℕ) : ℚ))
    (h2 : x * ((FS : ℕ) : ℚ) ≤ (n : ℚ)) : segCount x = n := by
  unfold segCount
  have hc : ⌈x * ((FS : ℕ) : ℚ)⌉ = (n : ℤ) := by
    rw [Int.ceil_eq_iff]
    constructor
    · push_cast
      exact h1
    · push_cast
      exact h2
  rw [hc, Int.toNat_natCast]

theorem sizeT_eq : sizeT = 44100 := by
  unfold sizeT
  have hc : ⌈((FS : ℕ) : ℚ) * SECONDS⌉ = ((44100 : ℕ) : ℤ) := by
    rw [Int.ceil_eq_iff]
    constructor
    · push_cast
      norm_num [FS, SECONDS]
    · push_cast
      norm_num [FS, SECONDS]
  rw [hc, Int.toNat_natCast]

theorem envSegments_length (a d s_len s_level r : ℚ) :
    (envSegments a d s_len s_level r).length
      = segCount a + (segCount d + (segCount s_len + segCount r)) := by
  simp [envSegments, linspaceQ_length]

theorem segCount_half_up : segCount (22051/88200) = 11026 := by
  apply segCount_eq
  · norm_num [FS]
  · norm_num [FS]

theorem segCount_quarter : segCount (1/4) = 11025 := by
  apply segCount_eq
  · norm_num [FS]
  · norm_num [FS]

theorem segCount_half_down : segCount (22049/88200) = 11025 := by
  apply segCount_eq
  · norm_num [FS]
  · norm_num [FS]

theorem foldl_max_replicate_zero :
    ∀ m : ℕ, List.foldl max (0 : ℚ) (List.replicate m 0) = 0 := by
  intro m
  induction m with
  | zero => rfl
  | succ k ih => rw [List.replicate_succ, List.foldl_cons, max_self]; exact ih

theorem npMax_replicate_zero (n : ℕ) : npMax (List.replicate n (0 : ℚ)) = 0 := by
  cases n with
  | zero => rfl
  | succ m =>
      rw [List.replicate_succ]
      show List.foldl max (0 : ℚ) (List.replicate m 0) = 0
      exact foldl_max_replicate_zero m

theorem foldl_max_map_div {m : ℚ} (hm : 0 < m) :
    ∀ (xs : List ℚ) (a : ℚ),
      (xs.map (fun x => x / m)).foldl max (a / m) = xs.foldl max a / m := by
  intro xs
  induction xs with
  | nil => intro a; rfl
  | cons x xs ih =>
      intro a
      simp only [List.map_cons, List.foldl_cons]
      rw [max_div_div_right hm.le, ih]

theorem npMax_map_div {m : ℚ} (hm : 0 < m) (l : List ℚ) (hl : l ≠ []) :
    npMax (l.map (fun x => x / m)) = npMax l / m := by
  cases l with
  | nil => exact absurd rfl hl
  | cons x xs =>
      simp only [List.map_cons, npMax]
      exact foldl_max_map_div hm xs x

/-! ### Claims C3 and C4: additive mixing (`addsyn`) -/

/-- C3 (counterexample): for `waves = [[1, -2]]` the code divides by
`np.max(out) = 1`, not by the maximum absolute value `2`: `addsyn` returns
`[1, -2]`, which is not the spec's sum-over-max-abs `[1/2, -1]`, and the
result's maximum absolute sample value is `2`, not `1`. -/
theorem c3_addsyn_counterexample :
    addsyn [[(1 : ℚ), -2]] = [some 1, some (-2)]
    ∧ (specAddsynMaxAbs [[(1 : ℚ), -2]]).map some ≠ addsyn [[(1 : ℚ), -2]]
    ∧ npMax ((addsyn [[(1 : ℚ), -2]]).map (fun o => |o.getD 0|)) ≠ 1 := by
  refine ⟨?_, ?_, ?_⟩ <;>
    norm_num [addsyn, specAddsynMaxAbs, npSum, npMax, npDiv, max_def]

/-- C3 (amended): for every non-empty list of equal-length buffers whose
elementwise sum has a **positive maximum (signed) sample value**, `addsyn`
returns the elementwise sum divided by that maximum (signed) sample value
(all samples finite), so the result has maximum (signed) sample value
exactly 1. -/
theorem c3_addsyn_normalises_by_signed_max (waves : List (List ℚ))
    (hne : waves ≠ []) (L : ℕ) (hlen : ∀ w ∈ waves, w.length = L)
    (hpos : 0 < npMax (npSum waves)) :
    addsyn waves
      = (npSum waves).map (fun x => some (x / npMax (npSum waves)))
    ∧ npMax ((npSum waves).map (fun x => x / npMax (npSum waves))) = 1 := by
  have hM : npMax (npSum waves) ≠ 0 := ne_of_gt hpos
  constructor
  · simp [addsyn, npDiv, hM]
  · have hsum : npSum waves ≠ [] := by
      intro h
      rw [h] at hpos
      exact lt_irrefl 0 hpos
    rw [npMax_map_div hpos _ hsum, div_self hM]

/-- C3 (witness): the amended theorem applied to `[[1, 2], [3, 4]]`. -/
theorem c3_addsyn_witness :
    (([[(1 : ℚ), 2], [3, 4]] : List (List ℚ)) ≠ []
      ∧ (∀ w ∈ ([[(1 : ℚ), 2], [3, 4]] : List (List ℚ)), w.length = 2)
      ∧ 0 < npMax (npSum [[(1 : ℚ), 2], [3, 4]]))
    ∧ (addsyn [[(1 : ℚ), 2], [3, 4]]
        = (npSum [[(1 : ℚ), 2], [3, 4]]).map
            (fun x => some (x / npMax (npSum [[(1 : ℚ), 2], [3, 4]])))
      ∧ npMax ((npSum [[(1 : ℚ), 2], [3, 4]]).map
          (fun x => x / npMax (npSum [[(1 : ℚ), 2], [3, 4]]))) = 1) :=
  ⟨⟨by simp, by simp, by norm_num [npSum, npMax, max_def]⟩,
    c3_addsyn_normalises_by_signed_max [[(1 : ℚ), 2], [3, 4]] (by simp) 2
      (by simp) (by norm_num [npSum, npMax, max_def])⟩

/-- C4 (code bug): when the chain outputs sum to the all-zero buffer of the
fixed length, `addsyn` divides `0/0` samplewise; every sample of the result
is non-finite (`none` in the model, NaN in NumPy), not the claimed all-zero
buffer. -/
theorem c4_addsyn_all_zero_gives_nan :
    addsyn [List.replicate sizeT (0 : ℚ)]
      = List.replicate sizeT (none : Option ℚ) := by
  have hsum : npSum [List.replicate sizeT (0 : ℚ)]
      = List.replicate sizeT (0 : ℚ) := rfl
  simp only [addsyn, hsum, npMax_replicate_zero, List.map_replicate]
  simp [npDiv]

/-! ### Claims C5 and C6: envelope generation -/

/-- C5 (code bug): with `a = 22051/88200`, `d = s_len = 1/4`,
`s_level = 1/2`, `r = 22049/88200` the durations sum to exactly `SECONDS`,
so the code takes the zero-padding branch, yet the four per-segment ceilings
sum to `44101 > 44100` samples, and `np.zeros(np.size(T) - np.size(adsr))`
is called with a negative size and raises — `envelope` does not return a
fixed-length buffer for these valid parameters. -/
theorem c5_envelope_overflow_raises :
    envelope (22051/88200) (1/4) (1/4) (1/2) (22049/88200)
      = .error .negativeDim := by
  simp only [envelope]
  rw [if_neg (by norm_num)]
  rw [if_neg (by norm_num [SECONDS])]
  rw [if_pos]
  rw [envSegments_length, segCount_half_up, segCount_quarter,
    segCount_half_down, sizeT_eq]
  norm_num

/-- C6 (code bug): `s_level = 1/2` lies inside `[0, 1]`, yet `envelope`
still fails on this input (the negative-dimension slip of C5, a different
raise site than the `InvalidParameter` check), contradicting the claim that
no error is raised for in-range sustain levels. -/
theorem c6_envelope_error_with_valid_s_level :
    envelope (22051/88200) (22051/88200) (22049/88200) (1/2) (22049/88200)
      = .error .negativeDim
    ∧ ¬((1 : ℚ)/2 > 1 ∨ (1 : ℚ)/2 < 0) := by
  constructor
  · simp only [envelope]
    rw [if_neg (by norm_num)]
    rw [if_neg (by norm_num [SECONDS])]
    rw [if_pos]
    rw [envSegments_length, segCount_half_up, segCount_half_down, sizeT_eq]
    norm_num
  · norm_num

/-! ### Claim C9: `reshape_list` round trip -/

/-- `reshapeGo` flattens back to the original list when the lengths add up. -/
theorem reshapeGo_join {α : Type _} :
    ∀ (alg : List ℕ) (vals : List α), vals.length = alg.sum →
      (reshapeGo alg vals).flatten = vals := by
  intro alg
  induction alg with
  | nil =>
      intro vals h
      simp only [List.sum_nil] at h
      rw [List.length_eq_zero] at h
      simp [reshapeGo, h]
  | cons i rest ih =>
      intro vals h
      simp only [reshapeGo, List.flatten_cons]
      rw [ih (vals.drop i) (by simp [h, List.sum_cons])]
      exact List.take_append_drop i vals

/-- `reshapeGo` produces sublists of exactly the algorithm's lengths. -/
theorem reshapeGo_lengths {α : Type _} :
    ∀ (alg : List ℕ) (vals : List α), vals.length = alg.sum →
      (reshapeGo alg vals).map List.length = alg := by
  intro alg
  induction alg with
  | nil => intro vals _; rfl
  | cons i rest ih =>
      intro vals h
      simp only [reshapeGo, List.map_cons, List.length_take]
      rw [List.sum_cons] at h
      rw [ih (vals.drop i) (by rw [List.length_drop]; omega)]
      congr 1
      omega

/-- C9: reshaping a flat list by an algorithm whose sum matches the list's
length succeeds, flattening the result recovers the original list, each
sublist's length is the corresponding algorithm entry; a mismatched total
length fails with an error. -/
theorem c9_reshape_round_trip (vals : List ℚ) (alg : List ℕ) :
    (vals.length = alg.sum →
      reshape_list vals alg = .ok (reshapeGo alg vals)
      ∧ (reshapeGo alg vals).flatten = vals
      ∧ (reshapeGo alg vals).map List.length = alg)
    ∧ (vals.length ≠ alg.sum → isError (reshape_list vals alg) = true) := by
  constructor
  · intro h
    refine ⟨?_, reshapeGo_join alg vals h, reshapeGo_lengths alg vals h⟩
    simp [reshape_list, h]
  · intro h
    simp [reshape_list, h, isError]

/-- C9 (witness): the round trip at `vals = [1, 2, 3]`, `alg = [1, 2]`, and
the failure at `vals = [1]`, `alg = [2]`. -/
theorem c9_reshape_witness :
    (([(1 : ℚ), 2, 3] : List ℚ).length = [1, 2].sum
      ∧ (reshape_list ([(1 : ℚ), 2, 3]) [1, 2] = .ok (reshapeGo [1, 2] [(1 : ℚ), 2, 3])
        ∧ (reshapeGo [1, 2] [(1 : ℚ), 2, 3]).flatten = [(1 : ℚ), 2, 3]
        ∧ (reshapeGo [1, 2] [(1 : ℚ), 2, 3]).map List.length = [1, 2]))
    ∧ (([(1 : ℚ)] : List ℚ).length ≠ [2].sum
      ∧ isError (reshape_list ([(1 : ℚ)]) [2]) = true) :=
  ⟨⟨by decide, (c9_reshape_round_trip [(1 : ℚ), 2, 3] [1, 2]).1 (by decide)⟩,
    ⟨by decide, (c9_reshape_round_trip [(1 : ℚ)] [2]).2 (by decide)⟩⟩

/-! ### Claim C2: the operator output formula -/

/-- Fuse the pointwise NumPy operations of `Operator._update_out` into a
single `zipWith` over the zipped envelope/time-grid buffers. -/
theorem fuse_formula (sinf : ℚ → ℚ) (c I : ℚ) :
    ∀ (e t m : List ℚ),
      List.zipWith (· * ·) e
        ((List.zipWith (· + ·) (t.map (fun v => c * v))
          (m.map (fun v => I * v))).map sinf)
      = List.zipWith (fun (et : ℚ × ℚ) mj => et.1 * sinf (c * et.2 + I * mj))
          (e.zip t) m := by
  intro e
  induction e with
  | nil => intro t m; simp
  | cons x xs ih =>
      intro t m
      cases t with
      | nil => simp
      | cons y ys =>
          cases m with
          | nil => simp
          | cons z zs =>
              simp only [List.map_cons, List.zipWith_cons_cons,
                List.zip_cons_cons]
              rw [ih ys zs]

theorem opFormula_eq_specPointwise (sinf : ℚ → ℚ) (twoPi f I : ℚ)
    (e m : List ℚ) :
    opFormula sinf twoPi f I e m = specPointwise sinf twoPi f I e m := by
  unfold opFormula specPointwise npMulL npSin npAddL scalMul
  exact fuse_formula sinf (twoPi * f) I e T m

theorem fbIter_eq_specModSeq (sinf : ℚ → ℚ) (twoPi : ℚ) (op : Operator) :
    ∀ k : ℕ, fbIter sinf twoPi op k
      = specModSeq sinf twoPi op.freq op.mod_idx op.env op.mod k := by
  intro k
  induction k with
  | zero => rfl
  | succ j ih =>
      simp only [fbIter, specModSeq]
      rw [ih, opFormula_eq_specPointwise]

/-- C2: for every operator state, `_update_out` produces
`e ⊙ sin(2π·f·t + I·m_k)` over the fixed time grid, where `m_0` is the
externally supplied modulating input and `m_(j+1) = e ⊙ sin(2π·f·t + I·m_j)`
(so `k = 0` uses the external input directly, exactly once); and an operator
constructed with an empty envelope parameter list gets the all-ones envelope
buffer. -/
theorem c2_operator_output_formula (sinf : ℚ → ℚ) (twoPi : ℚ) (op : Operator)
    (f mi : ℚ) (fb : ℕ) (m : List ℚ) :
    updateOutBuf sinf twoPi op
      = specPointwise sinf twoPi op.freq op.mod_idx op.env
          (specModSeq sinf twoPi op.freq op.mod_idx op.env op.mod op.fb)
    ∧ mkOperator sinf twoPi f mi [] fb m
      = .ok { freq := f * NOTE, mod_idx := mi,
              env := List.replicate sizeT (1 : ℚ), fb := fb, mod := m,
              out := [] } := by
  constructor
  · unfold updateOutBuf
    rw [fbIter_eq_specModSeq, opFormula_eq_specPointwise]
  · simp [mkOperator, envFromParams, Except.map]

/-! ### Claim C7: output envelope toggle round trip -/

theorem ok_bind {ε α β : Type _} (a : α) (f : α → Except ε β) :
    (do let x ← (.ok a : Except ε α); f x) = f a := rfl

theorem error_bind {ε α β : Type _} (e : ε) (f : α → Except ε β) :
    (do let x ← (.error e : Except ε α); f x) = .error e := rfl

theorem ok_map {ε α β : Type _} (a : α) (f : α → β) :
    (Except.ok a : Except ε α).map f = .ok (f a) := rfl

theorem error_map {ε α β : Type _} (e : ε) (f : α → β) :
    (Except.error e : Except ε α).map f = .error e := rfl

theorem ok_bindE {ε α β : Type _} (a : α) (f : α → Except ε β) :
    (Except.ok a : Except ε α).bind f = f a := rfl

theorem error_bindE {ε α β : Type _} (e : ε) (f : α → Except ε β) :
    (Except.error e : Except ε α).bind f = .error e := rfl

/-- A `set_output_envelope` call with non-empty, valid parameters: the
envelope buffer is regenerated and the parameters are remembered. -/
theorem set_output_envelope_nonempty (st : Synth) (q bufq : List ℚ)
    (hq : q ≠ []) (hb : envelopeFromList q = .ok bufq) :
    set_output_envelope st q
      = .ok { st with
              patch := { st.patch with output_env := q },
              output_envelope := bufq,
              prev_output_env_parameters := q,
              output_with_envelope := npMulOpt st.output bufq } := by
  simp [set_output_envelope, updateOutputEnvelope, hq, hb, ok_bind]

/-- A `set_output_envelope` call with the empty list: all-ones buffer, the
remembered parameters stay. -/
theorem set_output_envelope_empty (st : Synth) :
    set_output_envelope st []
      = .ok { st with
              patch := { st.patch with output_env := [] },
              output_envelope := List.replicate sizeT (1 : ℚ),
              output_with_envelope :=
                npMulOpt st.output (List.replicate sizeT (1 : ℚ)) } := by
  simp [set_output_envelope, updateOutputEnvelope]

/-- C7: for every engine state and every valid non-empty envelope parameter
list `p` generating a buffer `buf`, the sequence ENABLED(`p`) → DISABLED →
restore-from-remembered produces: after the first call the buffer `buf` with
`p` remembered; after the second the all-ones buffer with `p` still
remembered; after the restore exactly `buf` again; and any explicit set with
non-empty valid parameters updates the remembered parameters to them. -/
theorem c7_output_envelope_round_trip (s : Synth) (p buf : List ℚ)
    (hp : p ≠ []) (hbuf : envelopeFromList p = .ok buf) :
    (set_output_envelope s p).map (fun s1 => s1.output_envelope) = .ok buf
    ∧ (set_output_envelope s p).map
        (fun s1 => s1.prev_output_env_parameters) = .ok p
    ∧ ((set_output_envelope s p).bind
        (fun s1 => set_output_envelope s1 [])).map
        (fun s2 => (s2.output_envelope, s2.prev_output_env_parameters))
      = .ok (List.replicate sizeT (1 : ℚ), p)
    ∧ (((set_output_envelope s p).bind
        (fun s1 => set_output_envelope s1 [])).bind
        set_output_envelope_to_prev).map (fun s3 => s3.output_envelope)
      = .ok buf
    ∧ (∀ q bufq : List ℚ, q ≠ [] → envelopeFromList q = .ok bufq →
        (set_output_envelope s q).map
          (fun s1 => s1.prev_output_env_parameters) = .ok q) := by
  refine ⟨?_, ?_, ?_, ?_, ?_⟩
  · rw [set_output_envelope_nonempty s p buf hp hbuf]
    rfl
  · rw [set_output_envelope_nonempty s p buf hp hbuf]
    rfl
  · rw [set_output_envelope_nonempty s p buf hp hbuf]
    show (set_output_envelope _ []).map _ = _
    rw [set_output_envelope_empty]
    rfl
  · rw [set_output_envelope_nonempty s p buf hp hbuf]
    show ((set_output_envelope _ []).bind _).map _ = _
    rw [set_output_envelope_empty]
    show (set_output_envelope_to_prev _).map _ = _
    simp only [set_output_envelope_to_prev, updateOutputEnvelope]
    rw [if_neg]
    · simp [hbuf, ok_bind, ok_map]
    · exact hp
  · intro q bufq hq hb
    rw [set_output_envelope_nonempty s q bufq hq hb]
    rfl

/-- C7 (witness): the round trip on a concrete engine state with
`p = [0, 0, 0, 0, 0]` (which generates the all-zero envelope buffer). -/
theorem c7_output_envelope_witness :
    (([(0 : ℚ), 0, 0, 0, 0] : List ℚ) ≠ []
      ∧ envelopeFromList [(0 : ℚ), 0, 0, 0, 0]
          = .ok (List.replicate sizeT (0 : ℚ)))
    ∧ ((set_output_envelope testSynth [(0 : ℚ), 0, 0, 0, 0]).map
          (fun s1 => s1.output_envelope) = .ok (List.replicate sizeT (0 : ℚ))
      ∧ (set_output_envelope testSynth [(0 : ℚ), 0, 0, 0, 0]).map
          (fun s1 => s1.prev_output_env_parameters)
          = .ok [(0 : ℚ), 0, 0, 0, 0]
      ∧ ((set_output_envelope testSynth [(0 : ℚ), 0, 0, 0, 0]).bind
          (fun s1 => set_output_envelope s1 [])).map
          (fun s2 => (s2.output_envelope, s2.prev_output_env_parameters))
        = .ok (List.replicate sizeT (1 : ℚ), [(0 : ℚ), 0, 0, 0, 0])
      ∧ (((set_output_envelope testSynth [(0 : ℚ), 0, 0, 0, 0]).bind
          (fun s1 => set_output_envelope s1 [])).bind
          set_output_envelope_to_prev).map (fun s3 => s3.output_envelope)
        = .ok (List.replicate sizeT (0 : ℚ))
      ∧ (∀ q bufq : List ℚ, q ≠ [] → envelopeFromList q = .ok bufq →
          (set_output_envelope testSynth q).map
            (fun s1 => s1.prev_output_env_parameters) = .ok q)) :=
  ⟨⟨by simp,
    by norm_num [envelopeFromList, envelope, envSegments, segCount,
      linspaceQ, SECONDS]⟩,
    c7_output_envelope_round_trip testSynth [(0 : ℚ), 0, 0, 0, 0]
      (List.replicate sizeT (0 : ℚ)) (by simp)
      (by norm_num [envelopeFromList, envelope, envSegments, segCount,
        linspaceQ, SECONDS])⟩

/-! ### Claim C10: default remembered output-envelope parameters -/

theorem segCount_attack : segCount 0.0125 = 552 := by
  apply segCount_eq
  · norm_num [FS]
  · norm_num [FS]

theorem segCount_decay : segCount 0.025 = 1103 := by
  apply segCount_eq
  · norm_num [FS]
  · norm_num [FS]

theorem segCount_sustain : segCount 0.15 = 6615 := by
  apply segCount_eq
  · norm_num [FS]
  · norm_num [FS]

theorem segCount_release : segCount 0.05 = 2205 := by
  apply segCount_eq
  · norm_num [FS]
  · norm_num [FS]

/-- Generating from the default patch's output-envelope parameters succeeds
and produces `default_output_env_buf`. -/
theorem envelopeFromList_default :
    envelopeFromList default_patch_output_env = .ok default_output_env_buf := by
  show envelope 0.0125 0.025 0.15 0.7 0.05 = .ok default_output_env_buf
  simp only [envelope]
  rw [if_neg (by norm_num)]
  rw [if_neg (by norm_num [SECONDS])]
  rw [if_neg]
  · rfl
  · rw [envSegments_length, segCount_attack, segCount_decay,
      segCount_sustain, segCount_release, sizeT_eq]
    norm_num

theorem linspaceQ_getElem_zero (a b : ℚ) (n : ℕ) (h : n ≠ 0) :
    (linspaceQ a b n)[0]? = some a := by
  unfold linspaceQ
  split
  · rfl
  · rw [List.getElem?_map, List.getElem?_range (Nat.pos_of_ne_zero h)]
    simp

/-- The generated default output envelope starts at sample value 0 (the foot
of the attack ramp), hence is not the all-ones buffer. -/
theorem default_output_env_buf_ne_ones :
    default_output_env_buf ≠ List.replicate sizeT (1 : ℚ) := by
  have hA : (linspaceQ 0 1 (segCount 0.0125)).length = 552 := by
    rw [linspaceQ_length, segCount_attack]
  have h0 : default_output_env_buf[0]? = some 0 := by
    unfold default_output_env_buf envSegments
    rw [List.getElem?_append_left (by simp only [List.length_append, hA]; omega),
      List.getElem?_append_left (by simp only [List.length_append, hA]; omega),
      List.getElem?_append_left (by simp only [List.length_append, hA]; omega),
      List.getElem?_append_left (by simp only [List.length_append, hA]; omega),
      linspaceQ_getElem_zero 0 1 _ (by rw [segCount_attack]; omega)]
  intro h
  rw [h, List.getElem?_replicate, if_pos (by rw [sizeT_eq]; omega)] at h0
  have : (1 : ℚ) = 0 := by injection h0
  norm_num at this

/-- C10: constructing the engine from a patch with an empty output envelope
initialises the remembered parameters to the built-in default patch's
`[0.0125, 0.025, 0.15, 0.7, 0.05]` and the envelope buffer to all-ones, and
a subsequent restore-to-previous regenerates exactly the default envelope
buffer (which is not the all-ones buffer) without failing. -/
theorem c10_default_prev_env (sinf : ℚ → ℚ) (twoPi : ℚ) (p : Patch)
    (hp : p.output_env = []) :
    (synthInit sinf twoPi p).map
        (fun s => (s.prev_output_env_parameters, s.output_envelope))
      = (synthInit sinf twoPi p).map
        (fun _ => (default_patch_output_env, List.replicate sizeT (1 : ℚ)))
    ∧ ((synthInit sinf twoPi p).bind set_output_envelope_to_prev).map
        (fun s => s.output_envelope)
      = (synthInit sinf twoPi p).map (fun _ => default_output_env_buf)
    ∧ default_output_env_buf ≠ List.replicate sizeT (1 : ℚ) := by
  refine ⟨?_, ?_, default_output_env_buf_ne_ones⟩
  · cases h : mkChains sinf twoPi
      (zip6 p.algorithm p.freqs p.mod_indices p.envs p.mod_0 p.feedback) with
    | error e => simp [synthInit, h, error_bind, error_map]
    | ok chains => simp [synthInit, h, ok_bind, ok_map, hp]
  · cases h : mkChains sinf twoPi
      (zip6 p.algorithm p.freqs p.mod_indices p.envs p.mod_0 p.feedback) with
    | error e => simp [synthInit, h, error_bind, error_bindE, error_map]
    | ok chains =>
        simp only [synthInit, h, ok_bind, hp, if_pos, ite_true,
          eq_self_iff_true]
        rw [ok_bindE]
        simp only [set_output_envelope_to_prev, updateOutputEnvelope]
        rw [if_neg (by simp [default_patch_output_env])]
        rw [envelopeFromList_default, ok_bind, ok_map, ok_map]

/-- C10 (witness): the theorem applied to a concrete one-operator patch with
an empty output envelope; the construction succeeds on this patch, so the
compared results are `.ok` values. -/
theorem c10_default_prev_env_witness :
    testPatch.output_env = []
    ∧ isError (synthInit id 0 testPatch) = false
    ∧ ((synthInit id 0 testPatch).map
          (fun s => (s.prev_output_env_parameters, s.output_envelope))
        = (synthInit id 0 testPatch).map
          (fun _ => (default_patch_output_env, List.replicate sizeT (1 : ℚ)))
      ∧ ((synthInit id 0 testPatch).bind set_output_envelope_to_prev).map
          (fun s => s.output_envelope)
        = (synthInit id 0 testPatch).map (fun _ => default_output_env_buf)
      ∧ default_output_env_buf ≠ List.replicate sizeT (1 : ℚ)) :=
  ⟨rfl, rfl, c10_default_prev_env id 0 testPatch rfl⟩

/-! ### Claim C8: construction failure semantics -/

/-- The per-chain tuple at index `i` is an element of the zipped patch lists
whenever `i` is in range of all six. -/
theorem zip6_getD_mem :
    ∀ (i : ℕ) (as : List ℕ) (fs ms : List (List ℚ))
      (es : List (List (List ℚ))) (zs : List ℚ) (bs : List (List ℕ)),
      i < as.length → i < fs.length → i < ms.length → i < es.length →
      i < zs.length → i < bs.length →
      (as.getD i 0, fs.getD i [], ms.getD i [], es.getD i [],
        zs.getD i 0, bs.getD i []) ∈ zip6 as fs ms es zs bs := by
  intro i
  induction i with
  | zero =>
      intro as fs ms es zs bs h1 h2 h3 h4 h5 h6
      cases as with
      | nil => simp at h1
      | cons a as =>
      cases fs with
      | nil => simp at h2
      | cons f fs =>
      cases ms with
      | nil => simp at h3
      | cons m ms =>
      cases es with
      | nil => simp at h4
      | cons e es =>
      cases zs with
      | nil => simp at h5
      | cons z zs =>
      cases bs with
      | nil => simp at h6
      | cons b bs =>
      simp [zip6]
  | succ j ih =>
      intro as fs ms es zs bs h1 h2 h3 h4 h5 h6
      cases as with
      | nil => simp at h1
      | cons a as =>
      cases fs with
      | nil => simp at h2
      | cons f fs =>
      cases ms with
      | nil => simp at h3
      | cons m ms =>
      cases es with
      | nil => simp at h4
      | cons e es =>
      cases zs with
      | nil => simp at h5
      | cons z zs =>
      cases bs with
      | nil => simp at h6
      | cons b bs =>
      simp only [zip6, List.getD_cons_succ]
      exact List.mem_cons_of_mem _
        (ih as fs ms es zs bs
          (by simp only [List.length_cons] at h1; omega)
          (by simp only [List.length_cons] at h2; omega)
          (by simp only [List.length_cons] at h3; omega)
          (by simp only [List.length_cons] at h4; omega)
          (by simp only [List.length_cons] at h5; omega)
          (by simp only [List.length_cons] at h6; omega))

/-- A chain whose per-operator parameter lists do not all have length
`n_ops` fails to construct. -/
theorem mkOperatorChain_isError_of_mismatch (sinf : ℚ → ℚ) (twoPi : ℚ)
    (a : ℕ) (m0buf : List ℚ) (f mi : List ℚ) (e : List (List ℚ))
    (fb : List ℕ)
    (h : f.length ≠ a ∨ mi.length ≠ a ∨ e.length ≠ a ∨ fb.length ≠ a) :
    isError (mkOperatorChain sinf twoPi a m0buf f mi e fb) = true := by
  unfold mkOperatorChain
  by_cases ha : a = 0
  · rw [if_pos ha]
    rfl
  · rw [if_neg ha, if_pos h]
    rfl

/-- If some zipped chain tuple fails to construct, the whole chain-building
loop of `Synth.__init__` fails. -/
theorem mkChains_isError (sinf : ℚ → ℚ) (twoPi : ℚ) :
    ∀ (ts : List (ℕ × List ℚ × List ℚ × List (List ℚ) × ℚ × List ℕ))
      (a : ℕ) (f mi : List ℚ) (e : List (List ℚ)) (m0 : ℚ) (fb : List ℕ),
      (a, f, mi, e, m0, fb) ∈ ts →
      isError (mkOperatorChain sinf twoPi a (List.replicate sizeT m0)
        f mi e fb) = true →
      isError (mkChains sinf twoPi ts) = true := by
  intro ts
  induction ts with
  | nil =>
      intro a f mi e m0 fb hmem _
      simp at hmem
  | cons t rest ih =>
      intro a f mi e m0 fb hmem herr
      obtain ⟨a1, f1, mi1, e1, m01, fb1⟩ := t
      rcases List.mem_cons.1 hmem with heq | hmem1
      · simp only [Prod.mk.injEq] at heq
        obtain ⟨rfl, rfl, rfl, rfl, rfl, rfl⟩ := heq
        cases hc : mkOperatorChain sinf twoPi a (List.replicate sizeT m0)
            f mi e fb with
        | error err => simp [mkChains, hc, error_bind, isError]
        | ok c => rw [hc] at herr; simp [isError] at herr
      · cases hc : mkOperatorChain sinf twoPi a1 (List.replicate sizeT m01)
            f1 mi1 e1 fb1 with
        | error err => simp [mkChains, hc, error_bind, isError]
        | ok c =>
            have hrest := ih a f mi e m0 fb hmem1 herr
            cases hr : mkChains sinf twoPi rest with
            | error err =>
                simp [mkChains, hc, hr, ok_bind, error_bind, isError]
            | ok cs => rw [hr] at hrest; simp [isError] at hrest

/-- If the chain-building loop fails, the whole engine construction fails. -/
theorem synthInit_isError_of_chains (sinf : ℚ → ℚ) (twoPi : ℚ) (p : Patch)
    (h : isError (mkChains sinf twoPi
      (zip6 p.algorithm p.freqs p.mod_indices p.envs p.mod_0 p.feedback))
      = true) :
    isError (synthInit sinf twoPi p) = true := by
  cases hc : mkChains sinf twoPi
      (zip6 p.algorithm p.freqs p.mod_indices p.envs p.mod_0 p.feedback) with
  | error err => simp [synthInit, hc, error_bind, isError]
  | ok cs => rw [hc] at h; simp [isError] at h

/-- C8 (counterexample): `truncatedPatch` declares two chains in `algorithm`
but provides only one `freqs` entry, yet `Synth.__init__` succeeds with a
single constructed chain — Python's `zip` silently truncates, so this
partial patch is accepted rather than rejected. -/
theorem c8_outer_mismatch_accepted :
    (synthInit id 0 truncatedPatch).map (fun s => s.chains.length) = .ok 1
    ∧ truncatedPatch.freqs.length ≠ truncatedPatch.algorithm.length := by
  constructor
  · rfl
  · decide

/-- C8 (amended): a chain constructed with zero operators fails, and a patch
whose per-operator (inner) list lengths are inconsistent with the declared
algorithm entry of any zipped chain fails at engine construction; outer
per-chain list counts are *not* checked (see the counterexample). -/
theorem c8_construction_fails_fast (sinf : ℚ → ℚ) (twoPi : ℚ) :
    (∀ (m0 : List ℚ) (f mi : List ℚ) (e : List (List ℚ)) (fb : List ℕ),
      mkOperatorChain sinf twoPi 0 m0 f mi e fb = .error .zeroOps)
    ∧ (∀ (p : Patch) (i : ℕ),
        i < p.algorithm.length → i < p.freqs.length →
        i < p.mod_indices.length → i < p.envs.length →
        i < p.mod_0.length → i < p.feedback.length →
        ((p.freqs.getD i []).length ≠ p.algorithm.getD i 0
          ∨ (p.mod_indices.getD i []).length ≠ p.algorithm.getD i 0
          ∨ (p.envs.getD i []).length ≠ p.algorithm.getD i 0
          ∨ (p.feedback.getD i []).length ≠ p.algorithm.getD i 0) →
        isError (synthInit sinf twoPi p) = true) := by
  constructor
  · intro m0 f mi e fb
    rfl
  · intro p i h1 h2 h3 h4 h5 h6 hmis
    exact synthInit_isError_of_chains sinf twoPi p
      (mkChains_isError sinf twoPi _ _ _ _ _ _ _
        (zip6_getD_mem i p.algorithm p.freqs p.mod_indices p.envs
          p.mod_0 p.feedback h1 h2 h3 h4 h5 h6)
        (mkOperatorChain_isError_of_mismatch sinf twoPi _ _ _ _ _ _ hmis))

/-- C8 (witness): the zero-operator failure at concrete empty parameters,
and the inner-mismatch failure on `innerMismatchPatch` (algorithm `[2]`,
per-operator lists of length 1). -/
theorem c8_construction_fails_fast_witness :
    mkOperatorChain id 0 0 [] [] [] [] [] = .error .zeroOps
    ∧ (0 < innerMismatchPatch.algorithm.length
      ∧ 0 < innerMismatchPatch.freqs.length
      ∧ 0 < innerMismatchPatch.mod_indices.length
      ∧ 0 < innerMismatchPatch.envs.length
      ∧ 0 < innerMismatchPatch.mod_0.length
      ∧ 0 < innerMismatchPatch.feedback.length
      ∧ (innerMismatchPatch.freqs.getD 0 []).length
          ≠ innerMismatchPatch.algorithm.getD 0 0
      ∧ isError (synthInit id 0 innerMismatchPatch) = true) :=
  ⟨(c8_construction_fails_fast id 0).1 [] [] [] [] [],
    ⟨by decide, by decide, by decide, by decide, by decide, by decide,
      by decide,
      (c8_construction_fails_fast id 0).2 innerMismatchPatch 0
        (by decide) (by decide) (by decide) (by decide) (by decide)
        (by decide) (Or.inl (by decide))⟩⟩

/-! ### Claim C1: suffix-only recomputation in `set_new_op_params` -/

/-- Invariant of the Python scan loop: the result is the first index in
`[i, m)` satisfying `p`, or `m` when none does. -/
theorem scanGo_spec (p : ℕ → Bool) (m : ℕ) :
    ∀ (fuel i : ℕ), i + fuel = m →
      (i ≤ scanGo p m fuel i ∧ scanGo p m fuel i ≤ m)
      ∧ (∀ j, i ≤ j → j < scanGo p m fuel i → p j = false)
      ∧ (scanGo p m fuel i < m → p (scanGo p m fuel i) = true) := by
  intro fuel
  induction fuel with
  | zero =>
      intro i h
      simp only [scanGo]
      exact ⟨⟨by omega, le_refl m⟩, fun j h1 h2 => by omega,
        fun hlt => absurd hlt (lt_irrefl m)⟩
  | succ f ih =>
      intro i h
      have hstep : scanGo p m (f + 1) i
          = if p i then i else scanGo p m f (i + 1) := rfl
      cases hp : p i with
      | true =>
          rw [hstep, hp, if_pos rfl]
          exact ⟨⟨le_refl i, by omega⟩,
            fun j h1 h2 => absurd h2 (by omega), fun _ => hp⟩
      | false =>
          rw [hstep, hp, if_neg (by simp)]
          obtain ⟨⟨hlo, hhi⟩, hbefore, hhit⟩ := ih (i + 1) (by omega)
          refine ⟨⟨by omega, hhi⟩, ?_, hhit⟩
          intro j h1 h2
          rcases Nat.eq_or_lt_of_le h1 with rfl | hj
          · exact hp
          · exact hbefore j (by omega) h2

/-- The scan finds the first index `< m` where `p` holds, else returns `m`. -/
theorem scanFirstDiff_spec (p : ℕ → Bool) (m : ℕ) :
    scanFirstDiff p m ≤ m
    ∧ (∀ j < scanFirstDiff p m, p j = false)
    ∧ (scanFirstDiff p m < m → p (scanFirstDiff p m) = true) := by
  obtain ⟨⟨_, hhi⟩, hbefore, hhit⟩ := scanGo_spec p m m 0 (by omega)
  exact ⟨hhi, fun j hj => hbefore j (Nat.zero_le j) hj, hhit⟩

theorem fbIter_set_out (sinf : ℚ → ℚ) (twoPi : ℚ) (op : Operator)
    (x : List ℚ) :
    ∀ k : ℕ, fbIter sinf twoPi { op with out := x } k
      = fbIter sinf twoPi op k := by
  intro k
  induction k with
  | zero => rfl
  | succ j ihj => simp [fbIter, ihj]

/-- Recomputing the output does not depend on the cached output field. -/
theorem updateOutBuf_set_out (sinf : ℚ → ℚ) (twoPi : ℚ) (op : Operator)
    (x : List ℚ) :
    updateOutBuf sinf twoPi { op with out := x }
      = updateOutBuf sinf twoPi op := by
  simp [updateOutBuf, fbIter_set_out]

/-- An operator that has just gone through the recomputing `out` property
holds a freshly computed output consistent with its own state. -/
theorem refreshOut_fresh (sinf : ℚ → ℚ) (twoPi : ℚ) (op : Operator) :
    (refreshOut sinf twoPi op).out
      = updateOutBuf sinf twoPi (refreshOut sinf twoPi op) := by
  show updateOutBuf sinf twoPi op = _
  exact (updateOutBuf_set_out sinf twoPi op (updateOutBuf sinf twoPi op)).symm

theorem not_isError_iff {ε α : Type _} (r : Except ε α) :
    isError r = false ↔ ∃ a, r = .ok a := by
  cases r <;> simp [isError]

/-- The envelope-parameter component of every `zip5` tuple comes from the
envelope list. -/
theorem zip5_env_mem :
    ∀ (os : List Operator) (fs ms : List ℚ) (es : List (List ℚ))
      (bs : List ℕ) (t : Operator × ℚ × ℚ × List ℚ × ℕ),
      t ∈ zip5 os fs ms es bs → t.2.2.2.1 ∈ es := by
  intro os
  induction os with
  | nil =>
      intro fs ms es bs t ht
      rw [show zip5 [] fs ms es bs = [] from rfl] at ht
      simp at ht
  | cons o os ih =>
      intro fs ms es bs t ht
      cases fs with
      | nil =>
          rw [show zip5 (o :: os) [] ms es bs = [] from rfl] at ht
          simp at ht
      | cons f fs =>
      cases ms with
      | nil =>
          rw [show zip5 (o :: os) (f :: fs) [] es bs = [] from rfl] at ht
          simp at ht
      | cons m ms =>
      cases es with
      | nil =>
          rw [show zip5 (o :: os) (f :: fs) (m :: ms) [] bs = [] from rfl] at ht
          simp at ht
      | cons e es =>
      cases bs with
      | nil =>
          rw [show zip5 (o :: os) (f :: fs) (m :: ms) (e :: es) [] = []
            from rfl] at ht
          simp at ht
      | cons b bs =>
      rw [show zip5 (o :: os) (f :: fs) (m :: ms) (e :: es) (b :: bs)
          = (o, f, m, e, b) :: zip5 os fs ms es bs from rfl] at ht
      rcases List.mem_cons.1 ht with rfl | ht1
      · exact List.mem_cons_self e es
      · exact List.mem_cons_of_mem e (ih fs ms es bs t ht1)

/-- `zip5` of five lists of one common length has that length. -/
theorem zip5_length_of_eq :
    ∀ (os : List Operator) (fs ms : List ℚ) (es : List (List ℚ))
      (bs : List ℕ) (n : ℕ),
      os.length = n → fs.length = n → ms.length = n → es.length = n →
      bs.length = n → (zip5 os fs ms es bs).length = n := by
  intro os
  induction os with
  | nil =>
      intro fs ms es bs n h1 _ _ _ _
      rw [show zip5 [] fs ms es bs = [] from rfl]
      simpa using h1
  | cons o os ih =>
      intro fs ms es bs n h1 h2 h3 h4 h5
      cases n with
      | zero => simp at h1
      | succ k =>
      cases fs with
      | nil => simp at h2
      | cons f fs =>
      cases ms with
      | nil => simp at h3
      | cons m ms =>
      cases es with
      | nil => simp at h4
      | cons e es =>
      cases bs with
      | nil => simp at h5
      | cons b bs =>
      rw [show zip5 (o :: os) (f :: fs) (m :: ms) (e :: es) (b :: bs)
          = (o, f, m, e, b) :: zip5 os fs ms es bs from rfl]
      simp only [List.length_cons] at h1 h2 h3 h4 h5 ⊢
      rw [ih fs ms es bs k (by omega) (by omega) (by omega) (by omega)
        (by omega)]

/-- The rewiring loop of `_update_output` succeeds when every new envelope
parameter list is valid, producing one operator per input plus the head, and
every operator it returns carries a freshly recomputed output. -/
theorem updateChainAux_spec (sinf : ℚ → ℚ) (twoPi : ℚ) :
    ∀ (rest : List (Operator × ℚ × ℚ × List ℚ × ℕ)) (curr : Operator),
      (∀ t ∈ rest, isError (envFromParams t.2.2.2.1) = false) →
      ∃ ops outp,
        updateChainAux sinf twoPi curr rest = .ok (ops, outp)
        ∧ ops.length = rest.length + 1
        ∧ ∀ op ∈ ops, op.out = updateOutBuf sinf twoPi op := by
  intro rest
  induction rest with
  | nil =>
      intro curr _
      refine ⟨[refreshOut sinf twoPi curr], (refreshOut sinf twoPi curr).out,
        rfl, rfl, ?_⟩
      intro op hop
      rw [List.mem_singleton] at hop
      subst hop
      exact refreshOut_fresh sinf twoPi curr
  | cons t rest ih =>
      obtain ⟨op0, f, mi, e, fb⟩ := t
      intro curr henv
      have he : isError (envFromParams e) = false :=
        henv (op0, f, mi, e, fb) (List.mem_cons_self _ _)
      obtain ⟨eb, heb⟩ := (not_isError_iff _).1 he
      have hset : setOpFields op0 f mi e fb
          = .ok ⟨f * NOTE, mi, eb, fb, op0.mod, op0.out⟩ := by
        rw [setOpFields, heb]
        rfl
      obtain ⟨ops, outp, hok, hlen, hfresh⟩ :=
        ih ⟨f * NOTE, mi, eb, fb, (refreshOut sinf twoPi curr).out, op0.out⟩
          (fun t1 ht1 => henv t1 (List.mem_cons_of_mem _ ht1))
      refine ⟨refreshOut sinf twoPi curr :: ops, outp, ?_, ?_, ?_⟩
      · simp only [updateChainAux]
        rw [hset, ok_bind]
        dsimp only
        rw [hok, ok_bind]
      · simp [hlen]
      · intro op hop
        rcases List.mem_cons.1 hop with rfl | hop1
        · exact refreshOut_fresh sinf twoPi curr
        · exact hfresh op hop1

theorem getD_mem {α : Type _} (l : List α) (i : ℕ) (d : α)
    (h : i < l.length) : l.getD i d ∈ l := by
  rw [List.getD_eq_getElem l d h]
  exact List.getElem_mem h

/-- Reading a slice-assigned list (`xs[s:] = new[s:]`) at `i ≥ s` reads the
new list. -/
theorem take_append_drop_getD {α : Type _} (s : ℕ) (a b : List α) (d : α)
    (i : ℕ) (hsa : s ≤ a.length) (hi : s ≤ i) :
    (a.take s ++ b.drop s).getD i d = b.getD i d := by
  rw [List.getD_eq_getElem?_getD, List.getD_eq_getElem?_getD]
  rw [List.getElem?_append_right (by rw [List.length_take]; omega)]
  rw [List.getElem?_drop]
  congr 2
  rw [List.length_take]
  omega

/-- The tail of a slice-assigned list beyond the splice point is the new
list's tail. -/
theorem take_append_drop_drop {α : Type _} (s : ℕ) (a b : List α)
    (hsa : s ≤ a.length) :
    (a.take s ++ b.drop s).drop (s + 1) = b.drop (s + 1) := by
  have h1 : (a.take s).length = s := by rw [List.length_take]; omega
  calc (a.take s ++ b.drop s).drop (s + 1)
      = ((a.take s ++ b.drop s).drop s).drop 1 := (List.drop_drop 1 s _).symm
    _ = ((a.take s ++ b.drop s).drop (a.take s).length).drop 1 := by rw [h1]
    _ = (b.drop s).drop 1 := by rw [List.drop_left]
    _ = b.drop (s + 1) := List.drop_drop 1 s b

/-- `OperatorChain._update_output(idx)` succeeds when the stored envelope
parameters from `idx` on are valid; it keeps operators before `idx`
untouched and returns freshly recomputed operators from `idx` on. -/
theorem updateOutput_ok (sinf : ℚ → ℚ) (twoPi : ℚ) (ch : OperatorChain)
    (idx : ℕ) (hidx : idx < ch.operators.length)
    (hf : ch.freqs.length = ch.operators.length)
    (hm : ch.mod_indices.length = ch.operators.length)
    (he : ch.envs.length = ch.operators.length)
    (hb : ch.feedback.length = ch.operators.length)
    (henv : ∀ e1 ∈ ch.envs.drop idx, isError (envFromParams e1) = false) :
    ∃ ops outp,
      updateOutput sinf twoPi ch idx
        = .ok { ch with
                operators := ch.operators.take idx ++ ops,
                output := outp }
      ∧ ops.length = ch.operators.length - idx
      ∧ ∀ op ∈ ops, op.out = updateOutBuf sinf twoPi op := by
  have hdrop := List.drop_eq_getElem_cons hidx
  have he0 : isError (envFromParams (ch.envs.getD idx [])) = false := by
    apply henv
    have h0 : (ch.envs.drop idx).getD 0 [] = ch.envs.getD idx [] := by
      rw [List.getD_eq_getElem?_getD, List.getD_eq_getElem?_getD,
        List.getElem?_drop]
      simp
    rw [← h0]
    apply getD_mem
    rw [List.length_drop]
    omega
  obtain ⟨eb, heb⟩ := (not_isError_iff _).1 he0
  have hset : setOpFields (ch.operators[idx]) (ch.freqs.getD idx 0)
      (ch.mod_indices.getD idx 0) (ch.envs.getD idx [])
      (ch.feedback.getD idx 0)
      = .ok ⟨ch.freqs.getD idx 0 * NOTE, ch.mod_indices.getD idx 0, eb,
          ch.feedback.getD idx 0, (ch.operators[idx]).mod,
          (ch.operators[idx]).out⟩ := by
    rw [setOpFields, heb]
    rfl
  have henv5 : ∀ t ∈ zip5 (ch.operators.drop (idx + 1))
      (ch.freqs.drop (idx + 1)) (ch.mod_indices.drop (idx + 1))
      (ch.envs.drop (idx + 1)) (ch.feedback.drop (idx + 1)),
      isError (envFromParams t.2.2.2.1) = false := by
    intro t ht
    have hmem := zip5_env_mem _ _ _ _ _ t ht
    apply henv
    have hsub : (ch.envs.drop (idx + 1)).Sublist (ch.envs.drop idx) := by
      rw [← List.drop_drop]
      exact List.drop_sublist 1 _
    exact List.Sublist.mem hmem hsub
  obtain ⟨ops, outp, haux, hlen, hfresh⟩ :=
    updateChainAux_spec sinf twoPi
      (zip5 (ch.operators.drop (idx + 1)) (ch.freqs.drop (idx + 1))
        (ch.mod_indices.drop (idx + 1)) (ch.envs.drop (idx + 1))
        (ch.feedback.drop (idx + 1)))
      ⟨ch.freqs.getD idx 0 * NOTE, ch.mod_indices.getD idx 0, eb,
        ch.feedback.getD idx 0, (ch.operators[idx]).mod,
        (ch.operators[idx]).out⟩ henv5
  refine ⟨ops, outp, ?_, ?_, hfresh⟩
  · simp only [updateOutput]
    rw [hdrop]
    dsimp only
    rw [hset, ok_bind]
    rw [haux, ok_bind]
  · rw [hlen, zip5_length_of_eq (ch.operators.drop (idx + 1))
      (ch.freqs.drop (idx + 1)) (ch.mod_indices.drop (idx + 1))
      (ch.envs.drop (idx + 1)) (ch.feedback.drop (idx + 1))
      (ch.operators.length - (idx + 1)) (List.length_drop _ _)
      (by rw [List.length_drop, hf]) (by rw [List.length_drop, hm])
      (by rw [List.length_drop, he]) (by rw [List.length_drop, hb])]
    omega

/-- C1: `set_new_op_params` picks `start` as the smallest index in
`0..n-2` at which any of (freq, mod_index, env, feedback) differs from the
stored values — `n-1` when none differs before the last operator, and `0`
for a chain of length 1 (always recomputed); the call succeeds (for valid
new envelopes), the operator records before `start` are bit-identical to the
old ones, the operator count is preserved, and every operator from `start`
on carries a freshly recomputed output. -/
theorem c1_set_new_op_params_suffix (sinf : ℚ → ℚ) (twoPi : ℚ)
    (ch : OperatorChain) (nf nm : List ℚ) (ne1 : List (List ℚ))
    (nb : List ℕ) (hn : 0 < ch.n_ops)
    (hf : ch.freqs.length = ch.n_ops)
    (hm : ch.mod_indices.length = ch.n_ops)
    (he : ch.envs.length = ch.n_ops)
    (hb : ch.feedback.length = ch.n_ops)
    (hops : ch.operators.length = ch.n_ops)
    (hnf : nf.length = ch.n_ops) (hnm : nm.length = ch.n_ops)
    (hne : ne1.length = ch.n_ops) (hnb : nb.length = ch.n_ops)
    (henv : ∀ e1 ∈ ne1, isError (envFromParams e1) = false) :
    (findStart ch nf nm ne1 nb ≤ ch.n_ops - 1
      ∧ (∀ j < findStart ch nf nm ne1 nb,
          paramTuple nf nm ne1 nb j
            = paramTuple ch.freqs ch.mod_indices ch.envs ch.feedback j)
      ∧ (findStart ch nf nm ne1 nb < ch.n_ops - 1 →
          paramTuple nf nm ne1 nb (findStart ch nf nm ne1 nb)
            ≠ paramTuple ch.freqs ch.mod_indices ch.envs ch.feedback
                (findStart ch nf nm ne1 nb))
      ∧ (ch.n_ops = 1 → findStart ch nf nm ne1 nb = 0))
    ∧ (set_new_op_params sinf twoPi ch nf nm ne1 nb).map
        (fun c => c.operators.take (findStart ch nf nm ne1 nb))
      = .ok (ch.operators.take (findStart ch nf nm ne1 nb))
    ∧ (set_new_op_params sinf twoPi ch nf nm ne1 nb).map
        (fun c => c.operators.length) = .ok ch.n_ops
    ∧ (set_new_op_params sinf twoPi ch nf nm ne1 nb).map
        (fun c => (c.operators.drop (findStart ch nf nm ne1 nb)).map
          (fun op => op.out))
      = (set_new_op_params sinf twoPi ch nf nm ne1 nb).map
        (fun c => (c.operators.drop (findStart ch nf nm ne1 nb)).map
          (fun op => updateOutBuf sinf twoPi op)) := by
  obtain ⟨hle, hbefore, hhit⟩ := scanFirstDiff_spec
    (fun i => decide (paramTuple nf nm ne1 nb i
      ≠ paramTuple ch.freqs ch.mod_indices ch.envs ch.feedback i))
    (ch.n_ops - 1)
  have hle1 : findStart ch nf nm ne1 nb ≤ ch.n_ops - 1 := hle
  have hlt : findStart ch nf nm ne1 nb < ch.n_ops := by omega
  have hA : (ch.operators.take (findStart ch nf nm ne1 nb)).length
      = findStart ch nf nm ne1 nb := by
    rw [List.length_take]
    omega
  obtain ⟨ops, outp, hok, hlen2, hfresh⟩ :=
    updateOutput_ok sinf twoPi
      { ch with
        freqs := ch.freqs.take (findStart ch nf nm ne1 nb)
          ++ nf.drop (findStart ch nf nm ne1 nb),
        mod_indices := ch.mod_indices.take (findStart ch nf nm ne1 nb)
          ++ nm.drop (findStart ch nf nm ne1 nb),
        envs := ch.envs.take (findStart ch nf nm ne1 nb)
          ++ ne1.drop (findStart ch nf nm ne1 nb),
        feedback := ch.feedback.take (findStart ch nf nm ne1 nb)
          ++ nb.drop (findStart ch nf nm ne1 nb) }
      (findStart ch nf nm ne1 nb)
      (show findStart ch nf nm ne1 nb < ch.operators.length by omega)
      (show (ch.freqs.take (findStart ch nf nm ne1 nb)
          ++ nf.drop (findStart ch nf nm ne1 nb)).length
          = ch.operators.length by
        rw [List.length_append, List.length_take, List.length_drop]
        omega)
      (show (ch.mod_indices.take (findStart ch nf nm ne1 nb)
          ++ nm.drop (findStart ch nf nm ne1 nb)).length
          = ch.operators.length by
        rw [List.length_append, List.length_take, List.length_drop]
        omega)
      (show (ch.envs.take (findStart ch nf nm ne1 nb)
          ++ ne1.drop (findStart ch nf nm ne1 nb)).length
          = ch.operators.length by
        rw [List.length_append, List.length_take, List.length_drop]
        omega)
      (show (ch.feedback.take (findStart ch nf nm ne1 nb)
          ++ nb.drop (findStart ch nf nm ne1 nb)).length
          = ch.operators.length by
        rw [List.length_append, List.length_take, List.length_drop]
        omega)
      (by
        intro e1 he1
        replace he1 : e1 ∈ (ch.envs.take (findStart ch nf nm ne1 nb)
            ++ ne1.drop (findStart ch nf nm ne1 nb)).drop
              (findStart ch nf nm ne1 nb) := he1
        have hds : (ch.envs.take (findStart ch nf nm ne1 nb)
            ++ ne1.drop (findStart ch nf nm ne1 nb)).drop
              (findStart ch nf nm ne1 nb)
            = ne1.drop (findStart ch nf nm ne1 nb) := by
          have h2 := List.drop_left (ch.envs.take (findStart ch nf nm ne1 nb))
            (ne1.drop (findStart ch nf nm ne1 nb))
          rw [show (ch.envs.take (findStart ch nf nm ne1 nb)).length
              = findStart ch nf nm ne1 nb by rw [List.length_take]; omega]
            at h2
          exact h2
        rw [hds] at he1
        exact henv e1 (List.Sublist.mem he1 (List.drop_sublist _ _)))
  have hkey : set_new_op_params sinf twoPi ch nf nm ne1 nb
      = updateOutput sinf twoPi
        { ch with
          freqs := ch.freqs.take (findStart ch nf nm ne1 nb)
            ++ nf.drop (findStart ch nf nm ne1 nb),
          mod_indices := ch.mod_indices.take (findStart ch nf nm ne1 nb)
            ++ nm.drop (findStart ch nf nm ne1 nb),
          envs := ch.envs.take (findStart ch nf nm ne1 nb)
            ++ ne1.drop (findStart ch nf nm ne1 nb),
          feedback := ch.feedback.take (findStart ch nf nm ne1 nb)
            ++ nb.drop (findStart ch nf nm ne1 nb) }
        (findStart ch nf nm ne1 nb) := rfl
  rw [hkey] at *
  refine ⟨⟨hle1, ?_, ?_, ?_⟩, ?_, ?_, ?_⟩
  · intro j hj
    have := hbefore j hj
    simpa using this
  · intro hltm
    exact of_decide_eq_true (hhit hltm)
  · intro h1
    omega
  · rw [hok, ok_map]
    have h2 := List.take_left (ch.operators.take (findStart ch nf nm ne1 nb))
      ops
    rw [hA] at h2
    exact congrArg Except.ok h2
  · rw [hok, ok_map]
    rw [List.length_append, hA]
    rw [show ops.length = ch.operators.length - findStart ch nf nm ne1 nb
      from hlen2]
    congr 1
    omega
  · rw [hok, ok_map, ok_map]
    have h2 := List.drop_left (ch.operators.take (findStart ch nf nm ne1 nb))
      ops
    rw [hA] at h2
    rw [h2]
    exact congrArg Except.ok (List.map_congr_left hfresh)

/-- C1 (witness): the suffix-recompute theorem applied to a concrete
one-operator chain with a changed frequency parameter. -/
theorem c1_set_new_op_params_witness :
    (0 < testChain.n_ops
      ∧ testChain.freqs.length = testChain.n_ops
      ∧ testChain.mod_indices.length = testChain.n_ops
      ∧ testChain.envs.length = testChain.n_ops
      ∧ testChain.feedback.length = testChain.n_ops
      ∧ testChain.operators.length = testChain.n_ops
      ∧ ([(2 : ℚ)] : List ℚ).length = testChain.n_ops
      ∧ ([(1 : ℚ)] : List ℚ).length = testChain.n_ops
      ∧ ([([] : List ℚ)] : List (List ℚ)).length = testChain.n_ops
      ∧ ([0] : List ℕ).length = testChain.n_ops
      ∧ (∀ e1 ∈ ([([] : List ℚ)] : List (List ℚ)),
          isError (envFromParams e1) = false))
    ∧ ((findStart testChain [2] [1] [[]] [0] ≤ testChain.n_ops - 1
        ∧ (∀ j < findStart testChain [2] [1] [[]] [0],
            paramTuple [2] [1] [[]] [0] j
              = paramTuple testChain.freqs testChain.mod_indices
                  testChain.envs testChain.feedback j)
        ∧ (findStart testChain [2] [1] [[]] [0] < testChain.n_ops - 1 →
            paramTuple [2] [1] [[]] [0] (findStart testChain [2] [1] [[]] [0])
              ≠ paramTuple testChain.freqs testChain.mod_indices
                  testChain.envs testChain.feedback
                  (findStart testChain [2] [1] [[]] [0]))
        ∧ (testChain.n_ops = 1 → findStart testChain [2] [1] [[]] [0] = 0))
      ∧ (set_new_op_params id 0 testChain [2] [1] [[]] [0]).map
          (fun c => c.operators.take (findStart testChain [2] [1] [[]] [0]))
        = .ok (testChain.operators.take (findStart testChain [2] [1] [[]] [0]))
      ∧ (set_new_op_params id 0 testChain [2] [1] [[]] [0]).map
          (fun c => c.operators.length) = .ok testChain.n_ops
      ∧ (set_new_op_params id 0 testChain [2] [1] [[]] [0]).map
          (fun c => (c.operators.drop (findStart testChain [2] [1] [[]] [0])).map
            (fun op => op.out))
        = (set_new_op_params id 0 testChain [2] [1] [[]] [0]).map
          (fun c => (c.operators.drop (findStart testChain [2] [1] [[]] [0])).map
            (fun op => updateOutBuf id 0 op))) :=
  ⟨⟨by decide, by decide, by decide, by decide, by decide, by decide,
    by decide, by decide, by decide, by decide, by decide⟩,
    c1_set_new_op_params_suffix id 0 testChain [2] [1] [[]] [0]
      (by decide) (by decide) (by decide) (by decide) (by decide) (by decide)
      (by decide) (by decide) (by decide) (by decide) (by decide)⟩

end FMSynth
